import Mathlib

/-!
Verification development for the magicscroll entity-merge and semantic-search
core (files `ms_kuzu_store.py`, `ms_search.py`, `ms_sqlite_store.py`,
`ms_entry.py`).

Modelling conventions:
* Python strings are lists of Unicode codepoints (`List Nat`); `str.lower` and
  `str.strip` are modelled on the ASCII range (`pyToLower`, `pyIsSpace`).
* Python floats (confidence scores) are modelled as rationals.
* Kuzu timestamps (`datetime.now()`) are abstract naturals passed explicitly.
* The Kuzu graph is a record of keyed maps; a Cypher
  `MERGE ... ON CREATE ... ON MATCH ...` on a key becomes a point update on
  the map at that key, which is exactly its merge-on-key semantics.
* Every store helper wraps its single `kuzu_conn.execute` in
  `try/except ...: log` and swallows the exception; a helper therefore takes a
  `fail : Bool` that models the execute call raising, in which case the graph
  is unchanged and control returns normally.
* External library functions (sentence-transformer encode,
  `datetime.fromisoformat`, `json.loads`/`dumps`, Python `hash`) are
  parameters of the model, since they are outside the repository.
-/

/-! ## Python string primitives -/

/-- A Lean string literal as a list of codepoints, for readable constants. -/
def pyStr (s : String) : List Nat := s.data.map Char.toNat

/-- Python `str.isspace` on a single codepoint (ASCII whitespace range used by
`str.strip`). -/
def pyIsSpace (c : Nat) : Bool :=
  decide (c = 32 ∨ c = 9 ∨ c = 10 ∨ c = 13 ∨ c = 11 ∨ c = 12)

/-- Python `str.lower` on a single codepoint (ASCII range). -/
def pyToLower (c : Nat) : Nat := if 65 ≤ c ∧ c ≤ 90 then c + 32 else c

/-- Python `str.lower`. -/
def pyLower (l : List Nat) : List Nat := l.map pyToLower

/-- Python `str.lstrip()`. -/
def pyLStrip (l : List Nat) : List Nat := l.dropWhile pyIsSpace

/-- Python `str.rstrip()`. -/
def pyRStrip (l : List Nat) : List Nat := (l.reverse.dropWhile pyIsSpace).reverse

/-- Python `str.strip()`. -/
def pyStrip (l : List Nat) : List Nat := pyRStrip (pyLStrip l)

/-- Python substring membership `needle in hay`. -/
def containsSub (needle hay : List Nat) : Bool := decide (needle <:+: hay)

/-! ## ms_kuzu_store: entity normalisation and categorisation -/

/-- `normalize_entity_name` from ms_kuzu_store.py: `name.strip().lower()`. -/
def normalize_entity_name (name : List Nat) : List Nat := pyLower (pyStrip name)

/-- The keyword list of `_is_technology_term` in ms_kuzu_store.py. -/
def tech_indicators : List (List Nat) :=
  [pyStr "python", pyStr "javascript", pyStr "typescript", pyStr "rust",
   pyStr "go", pyStr "java", pyStr "cpp", pyStr "c++", pyStr "ruby",
   pyStr "php",
   pyStr "react", pyStr "vue", pyStr "angular", pyStr "django",
   pyStr "flask", pyStr "fastapi", pyStr "express", pyStr "next.js",
   pyStr "nuxt",
   pyStr "postgres", pyStr "postgresql", pyStr "mysql", pyStr "mongodb",
   pyStr "redis", pyStr "sqlite", pyStr "elasticsearch",
   pyStr "aws", pyStr "gcp", pyStr "azure", pyStr "docker",
   pyStr "kubernetes", pyStr "terraform", pyStr "ansible",
   pyStr "git", pyStr "github", pyStr "gitlab", pyStr "jenkins",
   pyStr "circleci", pyStr "webpack", pyStr "vite", pyStr "babel",
   pyStr "pytorch", pyStr "tensorflow", pyStr "transformers",
   pyStr "openai", pyStr "anthropic", pyStr "huggingface"]

/-- `_is_technology_term` from ms_kuzu_store.py. -/
def _is_technology_term (text : List Nat) : Bool :=
  let text_lower := pyLower text
  tech_indicators.any (fun ind => containsSub ind text_lower)

/-- `categorize_entity` from ms_kuzu_store.py. -/
def categorize_entity (entity_text entity_type : List Nat) : List Nat :=
  let entity_lower := pyLower entity_text
  if entity_type = pyStr "technology" then
    if [pyStr "python", pyStr "javascript", pyStr "rust", pyStr "go",
        pyStr "java", pyStr "cpp", pyStr "c++"].any
        (fun t => containsSub t entity_lower) then pyStr "programming_language"
    else if [pyStr "react", pyStr "vue", pyStr "angular", pyStr "svelte"].any
        (fun t => containsSub t entity_lower) then pyStr "frontend_framework"
    else if [pyStr "django", pyStr "flask", pyStr "fastapi",
        pyStr "express"].any
        (fun t => containsSub t entity_lower) then pyStr "backend_framework"
    else if [pyStr "postgres", pyStr "mysql", pyStr "mongodb",
        pyStr "redis"].any
        (fun t => containsSub t entity_lower) then pyStr "database"
    else if [pyStr "aws", pyStr "gcp", pyStr "azure", pyStr "docker",
        pyStr "kubernetes"].any
        (fun t => containsSub t entity_lower) then pyStr "infrastructure"
    else pyStr "general_tech"
  else if entity_type = pyStr "topic" then
    if [pyStr "machine learning", pyStr "ai", pyStr "neural",
        pyStr "model"].any
        (fun t => containsSub t entity_lower) then pyStr "ai_ml"
    else if [pyStr "web", pyStr "frontend", pyStr "backend", pyStr "api"].any
        (fun t => containsSub t entity_lower) then pyStr "web_development"
    else if [pyStr "business", pyStr "strategy", pyStr "market"].any
        (fun t => containsSub t entity_lower) then pyStr "business"
    else if [pyStr "design", pyStr "ux", pyStr "ui"].any
        (fun t => containsSub t entity_lower) then pyStr "design"
    else pyStr "general"
  else pyStr "general"

/-! ## ms_kuzu_store: graph data model -/

/-- An entity node (Person / Organization / Technology / Topic).  Person and
Organization nodes have no `category` property (`none`). -/
structure EntityNode where
  name : List Nat
  category : Option (List Nat)
  confidence : ℚ
  first_seen : ℕ
  last_seen : ℕ
  mention_count : ℕ
deriving DecidableEq, Repr

/-- An `MSEntry` node as stored by `_store_ms_entry`. -/
structure MSEntryNode where
  conversation_id : List Nat
  entry_type : List Nat
  title : List Nat
  created_at : ℕ
  token_count : ℕ
deriving DecidableEq, Repr

/-- A `DISCUSSED_IN` edge (Person to MSEntry). -/
structure PersonEdge where
  confidence : ℚ
  context : List Nat
  sentiment : List Nat
  mentioned_count : ℕ
deriving DecidableEq, Repr

/-- An `ORG_IN` edge (Organization to MSEntry). -/
structure OrgEdge where
  confidence : ℚ
  context : List Nat
  relationship_type : List Nat
deriving DecidableEq, Repr

/-- A `TECH_IN` edge (Technology to MSEntry). -/
structure TechEdge where
  confidence : ℚ
  usage_context : List Nat
  proficiency_level : List Nat
deriving DecidableEq, Repr

/-- A `TOPIC_IN` edge (Topic to MSEntry). -/
structure TopicEdge where
  confidence : ℚ
  importance_level : List Nat
  discussion_depth : List Nat
deriving DecidableEq, Repr

/-- The Kuzu graph: node tables keyed by `normalized_name` (resp. `entry_id`),
edge tables keyed by the (source key, entry_id) pair.  The keyed maps realise
the schema-level uniqueness of nodes and edges per key. -/
structure Graph where
  persons : List Nat → Option EntityNode
  organizations : List Nat → Option EntityNode
  technologies : List Nat → Option EntityNode
  topics : List Nat → Option EntityNode
  entries : List Nat → Option MSEntryNode
  discussedIn : List Nat × List Nat → Option PersonEdge
  orgIn : List Nat × List Nat → Option OrgEdge
  techIn : List Nat × List Nat → Option TechEdge
  topicIn : List Nat × List Nat → Option TopicEdge

/-- The empty graph. -/
def graphEmpty : Graph :=
  ⟨fun _ => none, fun _ => none, fun _ => none, fun _ => none, fun _ => none,
   fun _ => none, fun _ => none, fun _ => none, fun _ => none⟩

/-- Point update of a keyed node map. -/
def upd {β : Type} (f : List Nat → Option β) (k : List Nat) (v : β) :
    List Nat → Option β :=
  fun x => if x = k then some v else f x

/-- Point update of a keyed edge map. -/
def upd2 {β : Type} (f : List Nat × List Nat → Option β)
    (k : List Nat × List Nat) (v : β) : List Nat × List Nat → Option β :=
  fun x => if x = k then some v else f x

/-! ## ms_kuzu_store: node upserts -/

/-- The `MERGE ... ON CREATE ... ON MATCH ...` step shared verbatim by the four
entity-node store helpers: create with `mention_count = 1`,
`first_seen = last_seen = time`; on match raise `confidence` to the larger
value, bump `mention_count`, refresh `last_seen`, leave `name`, `category` and
`first_seen` untouched. -/
def mergeEntityNode (existing : Option EntityNode) (name : List Nat)
    (category : Option (List Nat)) (conf : ℚ) (time : ℕ) : EntityNode :=
  match existing with
  | none => ⟨name, category, conf, time, time, 1⟩
  | some n =>
    { n with
      confidence := if conf > n.confidence then conf else n.confidence,
      last_seen := time,
      mention_count := n.mention_count + 1 }

/-- `_store_person_entity` from ms_kuzu_store.py. -/
def _store_person_entity (fail : Bool) (g : Graph)
    (name normalized_name : List Nat) (conf : ℚ) (time : ℕ) : Graph :=
  if fail then g
  else
    let n := mergeEntityNode (g.persons normalized_name) name none conf time
    { g with persons := upd g.persons normalized_name n }

/-- `_store_organization_entity` from ms_kuzu_store.py. -/
def _store_organization_entity (fail : Bool) (g : Graph)
    (name normalized_name : List Nat) (conf : ℚ) (time : ℕ) : Graph :=
  if fail then g
  else
    let n :=
      mergeEntityNode (g.organizations normalized_name) name none conf time
    { g with organizations := upd g.organizations normalized_name n }

/-- `_store_technology_entity` from ms_kuzu_store.py (has a `category`). -/
def _store_technology_entity (fail : Bool) (g : Graph)
    (name normalized_name : List Nat) (conf : ℚ) (category : List Nat)
    (time : ℕ) : Graph :=
  if fail then g
  else
    let n := mergeEntityNode (g.technologies normalized_name) name
      (some category) conf time
    { g with technologies := upd g.technologies normalized_name n }

/-- `_store_topic_entity` from ms_kuzu_store.py (has a `category`). -/
def _store_topic_entity (fail : Bool) (g : Graph)
    (name normalized_name : List Nat) (conf : ℚ) (category : List Nat)
    (time : ℕ) : Graph :=
  if fail then g
  else
    let n := mergeEntityNode (g.topics normalized_name) name (some category)
      conf time
    { g with topics := upd g.topics normalized_name n }

/-- The `MERGE` step of `_store_ms_entry`: on create fill in all fields with
`entry_type = 'conversation'` and `token_count = 0`; on match only the title
is refreshed. -/
def mergeMSEntryNode (existing : Option MSEntryNode)
    (conversation_id title : List Nat) (time : ℕ) : MSEntryNode :=
  match existing with
  | none => ⟨conversation_id, pyStr "conversation", title, time, 0⟩
  | some n => { n with title := title }

/-- `_store_ms_entry` from ms_kuzu_store.py. -/
def _store_ms_entry (fail : Bool) (g : Graph)
    (entry_id conversation_id title : List Nat) (time : ℕ) : Graph :=
  if fail then g
  else
    let n := mergeMSEntryNode (g.entries entry_id) conversation_id title time
    { g with entries := upd g.entries entry_id n }

/-! ## ms_kuzu_store: relationship upserts -/

/-- The `MERGE` step of `_store_person_relationship`: create the
`DISCUSSED_IN` edge with `mentioned_count = 1` and fixed descriptive
attributes; on match bump the count and raise confidence to the larger
value. -/
def mergeDiscussedInEdge (existing : Option PersonEdge) (conf : ℚ) :
    PersonEdge :=
  match existing with
  | none => ⟨conf, pyStr "conversation", pyStr "neutral", 1⟩
  | some r =>
    { r with
      mentioned_count := r.mentioned_count + 1,
      confidence := if conf > r.confidence then conf else r.confidence }

/-- `_store_person_relationship` from ms_kuzu_store.py.  The Cypher first
`MATCH`es both endpoint nodes; if either is missing the `MERGE` touches no
rows, hence the guard. -/
def _store_person_relationship (fail : Bool) (g : Graph)
    (person_normalized entry_id : List Nat) (conf : ℚ) : Graph :=
  if fail then g
  else if (g.persons person_normalized).isSome && (g.entries entry_id).isSome
  then
    let r :=
      mergeDiscussedInEdge (g.discussedIn (person_normalized, entry_id)) conf
    { g with
        discussedIn := upd2 g.discussedIn (person_normalized, entry_id) r }
  else g

/-- The `MERGE` step of `_store_org_relationship`: no mention counter, only
confidence is raised on match. -/
def mergeOrgInEdge (existing : Option OrgEdge) (conf : ℚ) : OrgEdge :=
  match existing with
  | none => ⟨conf, pyStr "conversation", pyStr "mentioned"⟩
  | some r =>
    { r with confidence := if conf > r.confidence then conf else r.confidence }

/-- `_store_org_relationship` from ms_kuzu_store.py. -/
def _store_org_relationship (fail : Bool) (g : Graph)
    (org_normalized entry_id : List Nat) (conf : ℚ) : Graph :=
  if fail then g
  else if (g.organizations org_normalized).isSome
      && (g.entries entry_id).isSome then
    let r := mergeOrgInEdge (g.orgIn (org_normalized, entry_id)) conf
    { g with orgIn := upd2 g.orgIn (org_normalized, entry_id) r }
  else g

/-- The `MERGE` step of `_store_tech_relationship`: no mention counter. -/
def mergeTechInEdge (existing : Option TechEdge) (conf : ℚ) : TechEdge :=
  match existing with
  | none => ⟨conf, pyStr "discussion", pyStr "unknown"⟩
  | some r =>
    { r with confidence := if conf > r.confidence then conf else r.confidence }

/-- `_store_tech_relationship` from ms_kuzu_store.py. -/
def _store_tech_relationship (fail : Bool) (g : Graph)
    (tech_normalized entry_id : List Nat) (conf : ℚ) : Graph :=
  if fail then g
  else if (g.technologies tech_normalized).isSome
      && (g.entries entry_id).isSome then
    let r := mergeTechInEdge (g.techIn (tech_normalized, entry_id)) conf
    { g with techIn := upd2 g.techIn (tech_normalized, entry_id) r }
  else g

/-- The `MERGE` step of `_store_topic_relationship`: no mention counter. -/
def mergeTopicInEdge (existing : Option TopicEdge) (conf : ℚ) : TopicEdge :=
  match existing with
  | none => ⟨conf, pyStr "medium", pyStr "surface"⟩
  | some r =>
    { r with confidence := if conf > r.confidence then conf else r.confidence }

/-- `_store_topic_relationship` from ms_kuzu_store.py. -/
def _store_topic_relationship (fail : Bool) (g : Graph)
    (topic_normalized entry_id : List Nat) (conf : ℚ) : Graph :=
  if fail then g
  else if (g.topics topic_normalized).isSome
      && (g.entries entry_id).isSome then
    let r := mergeTopicInEdge (g.topicIn (topic_normalized, entry_id)) conf
    { g with topicIn := upd2 g.topicIn (topic_normalized, entry_id) r }
  else g

/-! ## ms_kuzu_store: store_entities_in_graph -/

/-- A GLiNER entity dict as consumed by `store_entities_in_graph`
(`label`, `text`, `score`; the `.get` defaults make absent keys the empty
string resp. `0.0`). -/
structure GlinerEntity where
  label : List Nat
  text : List Nat
  score : ℚ
deriving DecidableEq, Repr

/-- The per-variant counts returned by `store_entities_in_graph`. -/
structure Counts where
  person : ℕ
  organization : ℕ
  technology : ℕ
  topic : ℕ
deriving DecidableEq, Repr

/-- The all-zero counts dict. -/
def zeroCounts : Counts := ⟨0, 0, 0, 0⟩

/-- Pointwise sum of counts. -/
def addCounts (a b : Counts) : Counts :=
  ⟨a.person + b.person, a.organization + b.organization,
   a.technology + b.technology, a.topic + b.topic⟩

/-- One `kuzu_conn.execute` call issued by the batch loop, recorded as a trace
event (the call happens even when the helper swallows a failure). -/
inductive GraphOp
  | mergeMSEntry (entry_id conversation_id title : List Nat)
  | mergePerson (name normalized : List Nat) (conf : ℚ)
  | linkPerson (normalized entry_id : List Nat) (conf : ℚ)
  | mergeOrganization (name normalized : List Nat) (conf : ℚ)
  | linkOrganization (normalized entry_id : List Nat) (conf : ℚ)
  | mergeTechnology (name normalized category : List Nat) (conf : ℚ)
  | linkTechnology (normalized entry_id : List Nat) (conf : ℚ)
  | mergeTopic (name normalized category : List Nat) (conf : ℚ)
  | linkTopic (normalized entry_id : List Nat) (conf : ℚ)
deriving DecidableEq, Repr

/-- The body of the `for entity in entities` loop of
`store_entities_in_graph` (lines 75-107): label routing, empty-text skip, one
node upsert plus one relationship upsert per routed entity, and the count
increment.  `failMerge` / `failLink` model the two execute calls raising
(each is swallowed inside its helper, so the loop always continues and the
count is incremented regardless).  Returns the new graph, the count delta and
the trace of issued calls. -/
def processEntity (failMerge failLink : Bool) (g : Graph) (e : GlinerEntity)
    (entry_id : List Nat) (time : ℕ) : Graph × Counts × List GraphOp :=
  let entity_type := pyLower e.label
  let entity_text := pyStrip e.text
  let confidence := e.score
  if entity_text = [] then (g, zeroCounts, [])
  else
    let normalized_name := normalize_entity_name entity_text
    if entity_type = pyStr "person" then
      let g1 := _store_person_entity failMerge g entity_text normalized_name
        confidence time
      let g2 := _store_person_relationship failLink g1 normalized_name
        entry_id confidence
      (g2, ⟨1, 0, 0, 0⟩,
       [GraphOp.mergePerson entity_text normalized_name confidence,
        GraphOp.linkPerson normalized_name entry_id confidence])
    else if entity_type = pyStr "organization" then
      let g1 := _store_organization_entity failMerge g entity_text
        normalized_name confidence time
      let g2 := _store_org_relationship failLink g1 normalized_name entry_id
        confidence
      (g2, ⟨0, 1, 0, 0⟩,
       [GraphOp.mergeOrganization entity_text normalized_name confidence,
        GraphOp.linkOrganization normalized_name entry_id confidence])
    else if entity_type ∈ [pyStr "location", pyStr "technology", pyStr "misc"]
    then
      if _is_technology_term entity_text then
        let category := categorize_entity entity_text (pyStr "technology")
        let g1 := _store_technology_entity failMerge g entity_text
          normalized_name confidence category time
        let g2 := _store_tech_relationship failLink g1 normalized_name
          entry_id confidence
        (g2, ⟨0, 0, 1, 0⟩,
         [GraphOp.mergeTechnology entity_text normalized_name category
            confidence,
          GraphOp.linkTechnology normalized_name entry_id confidence])
      else
        let category := categorize_entity entity_text (pyStr "topic")
        let g1 := _store_topic_entity failMerge g entity_text normalized_name
          confidence category time
        let g2 := _store_topic_relationship failLink g1 normalized_name
          entry_id confidence
        (g2, ⟨0, 0, 0, 1⟩,
         [GraphOp.mergeTopic entity_text normalized_name category confidence,
          GraphOp.linkTopic normalized_name entry_id confidence])
    else (g, zeroCounts, [])

/-- The batch loop over the entity list; `fails i` gives the
(merge-fails, link-fails) pair for the entity at index `i`. -/
def processEntities (fails : ℕ → Bool × Bool) (i : ℕ) (g : Graph)
    (es : List GlinerEntity) (entry_id : List Nat) (time : ℕ) :
    Graph × Counts × List GraphOp :=
  match es with
  | [] => (g, zeroCounts, [])
  | e :: rest =>
    let p := processEntity (fails i).1 (fails i).2 g e entry_id time
    let r := processEntities fails (i + 1) p.1 rest entry_id time
    (r.1, addCounts p.2.1 r.2.1, p.2.2 ++ r.2.2)

/-- `store_entities_in_graph` from ms_kuzu_store.py.  `connFail` models the
outer `try` failing before the loop (at `storage.kuzu`), which returns the
all-zero counts dict; `entryFail` models the execute call inside
`_store_ms_entry` raising (swallowed there).  The loop body itself cannot
raise because every helper catches its own exceptions. -/
def store_entities_in_graph (connFail entryFail : Bool)
    (fails : ℕ → Bool × Bool) (g : Graph) (entities : List GlinerEntity)
    (conversation_id entry_id conversation_title : List Nat) (time : ℕ) :
    Graph × Counts × List GraphOp :=
  if connFail then (g, zeroCounts, [])
  else
    let g1 := _store_ms_entry entryFail g entry_id conversation_id
      conversation_title time
    let r := processEntities fails 0 g1 entities entry_id time
    (r.1, r.2.1,
     GraphOp.mergeMSEntry entry_id conversation_id conversation_title
       :: r.2.2)

/-- One merge observation for a fixed `(variant, normalized_key)` pair:
display text, category (used by the Technology variant only), confidence and
the `datetime.now()` value taken inside the helper. -/
structure MergeObs where
  name : List Nat
  category : List Nat
  score : ℚ
  time : ℕ
deriving DecidableEq, Repr

/-- A sequence of `_store_person_entity` calls sharing one normalized key. -/
def mergePersonObs (g : Graph) (key : List Nat) (obs : List MergeObs) :
    Graph :=
  obs.foldl (fun g o => _store_person_entity false g o.name key o.score o.time)
    g

/-- A sequence of `_store_technology_entity` calls sharing one normalized
key. -/
def mergeTechnologyObs (g : Graph) (key : List Nat) (obs : List MergeObs) :
    Graph :=
  obs.foldl
    (fun g o =>
      _store_technology_entity false g o.name key o.score o.category o.time)
    g

/-! ## ms_entry / ms_search: data model -/

/-- `EntryType` from ms_entry.py. -/
inductive EntryType
  | conversation
  | document
  | image
  | code
deriving DecidableEq, Repr

/-- The `.value` of an `EntryType` member. -/
def entryTypeValue : EntryType → List Nat
  | .conversation => pyStr "conversation"
  | .document => pyStr "document"
  | .image => pyStr "image"
  | .code => pyStr "code"

/-- The `EntryType(raw)` enum constructor: `none` models the `ValueError`
raised on an unknown value. -/
def entryTypeOfString (s : List Nat) : Option EntryType :=
  if s = pyStr "conversation" then some .conversation
  else if s = pyStr "document" then some .document
  else if s = pyStr "image" then some .image
  else if s = pyStr "code" then some .code
  else none

/-- Metadata dictionaries, modelled as string-keyed association lists. -/
def MetaVal : Type := List (List Nat × List Nat)

instance : DecidableEq MetaVal := by
  unfold MetaVal
  infer_instance

/-- `MSEntry` from ms_entry.py (`created_at` is an abstract timestamp). -/
structure MSEntry where
  id : List Nat
  content : List Nat
  entry_type : EntryType
  created_at : ℕ
  metadata : MetaVal
deriving DecidableEq

/-- `SearchResult` from ms_types (constructed in ms_search.py with
`source='vector'` and empty `related_entries` / `context`). -/
structure SearchResult where
  entry : MSEntry
  score : ℚ
  source : List Nat
  related_entries : List MSEntry
  context : MetaVal
deriving DecidableEq

/-- A temporal filter (`start` / `end` datetime bounds), passed through to the
backing store. -/
structure TemporalFilter where
  startTime : Option ℕ
  endTime : Option ℕ
deriving DecidableEq

/-- A raw vector-store hit dict as consumed by `_results_to_entries`: every
field is read with `.get`, so each is optional.  `created_at` is either an ISO
string or a datetime object; `metadata` is either a JSON string or a dict. -/
structure VectorHit where
  id : Option (List Nat)
  content : Option (List Nat)
  entry_type : Option (List Nat)
  score : Option ℚ
  created_at : Option (List Nat ⊕ ℕ)
  metadata : Option (List Nat ⊕ MetaVal)
deriving DecidableEq

/-- One `search_by_vector` call observed at the store boundary (embedding,
limit, entry-type filter, temporal filter). -/
structure StoreCall where
  embedding : List ℚ
  limit : ℕ
  entry_types : Option (List EntryType)
  temporal : Option TemporalFilter
deriving DecidableEq

/-- The vector-store boundary (`ms_store.search_by_vector`). -/
structure VectorStore where
  searchByVector : List ℚ → ℕ → Option (List EntryType) →
    Option TemporalFilter → List VectorHit

/-- Everything `MSSearch` reads from its environment.  `embedModel = none`
models both a missing model and a model without an `encode` method; an
`encode` returning `none` models the call raising.  `getEntry = none` covers
both a missing record and `get_ms_entry` raising.  `parseIso`, `parseJson`
and `hashId` are the external stdlib calls; `nowIso` is the
`datetime.utcnow().isoformat()` string used as the `created_at` default. -/
structure SearchCtx where
  embedModel : Option (List Nat → Option (List ℚ))
  ms_store : Option VectorStore
  getEntry : List Nat → Option MSEntry
  parseIso : List Nat → Option ℕ
  parseJson : List Nat → Option MetaVal
  hashId : List Nat → List Nat
  nowIso : List Nat

/-- The fixed embedding dimension (`self.vector_dim` in ms_search.py). -/
def vector_dim : ℕ := 384

/-- `MSSearch._get_embedding`: empty list on a missing model, on the encode
call raising, or on a vector of the wrong length (Python additionally
requires truthiness, i.e. a non-empty vector). -/
def _get_embedding (embedModel : Option (List Nat → Option (List ℚ)))
    (text : List Nat) : List ℚ :=
  match embedModel with
  | none => []
  | some encode =>
    match encode text with
    | none => []
    | some embedding =>
      if embedding ≠ [] ∧ embedding.length = vector_dim then embedding
      else []

/-- The hydration attempt of `_results_to_entries`: only made for a truthy
`entry_id`; `none` covers both a missing record and the fetch raising. -/
def hydrationOf (ctx : SearchCtx) (hit : VectorHit) : Option MSEntry :=
  match hit.id with
  | some eid => if eid ≠ [] then ctx.getEntry eid else none
  | none => none

/-- The timestamp of a minimal entry: the hit value if present (parsed when it
is a string), else the parsed `utcnow` default string. -/
def parsedTime (ctx : SearchCtx) (hit : VectorHit) : Option ℕ :=
  match hit.created_at.getD (Sum.inl ctx.nowIso) with
  | Sum.inl s => ctx.parseIso s
  | Sum.inr t => some t

/-- The metadata of a minimal entry: a JSON string is parsed with a
`JSONDecodeError` fallback to the empty dict; a dict is taken as is. -/
def parsedMetadata (ctx : SearchCtx) (hit : VectorHit) : MetaVal :=
  match hit.metadata.getD (Sum.inr []) with
  | Sum.inl s => (ctx.parseJson s).getD []
  | Sum.inr m => m

/-- The id of a minimal entry: `entry_id or str(hash(content))[-8:]`. -/
def minimalId (ctx : SearchCtx) (hit : VectorHit) (content : List Nat) :
    List Nat :=
  match hit.id with
  | some eid => if eid ≠ [] then eid else ctx.hashId content
  | none => ctx.hashId content

/-- The `elif content and entry_type` fallback branch of
`_results_to_entries`: requires truthy inline `content` and `entry_type`, and
`none` models the minimal-entry construction raising (unparsable timestamp or
unknown entry type), which the source logs and drops. -/
def minimalResult (ctx : SearchCtx) (hit : VectorHit) (score : ℚ) :
    Option SearchResult :=
  match hit.content, hit.entry_type with
  | some c, some et =>
    if c ≠ [] ∧ et ≠ [] then
      match parsedTime ctx hit, entryTypeOfString et with
      | some ts, some ety =>
        some ⟨⟨minimalId ctx hit c, c, ety, ts, parsedMetadata ctx hit⟩,
          score, pyStr "vector", [], []⟩
      | _, _ => none
    else none
  | _, _ => none

/-- The score taken from a hit: `float(result.get('score', 0.5))`. -/
def hitScore (hit : VectorHit) : ℚ := hit.score.getD (1 / 2)

/-- Processing of one raw hit inside `_results_to_entries`: hydrate the full
record when possible, otherwise fall back to a minimal record, otherwise drop
the hit. -/
def processHit (ctx : SearchCtx) (hit : VectorHit) : Option SearchResult :=
  match hydrationOf ctx hit with
  | some entry => some ⟨entry, hitScore hit, pyStr "vector", [], []⟩
  | none => minimalResult ctx hit (hitScore hit)

/-- `MSSearch._results_to_entries`: each hit contributes at most one result,
in order. -/
def _results_to_entries (ctx : SearchCtx) (results : List VectorHit) :
    List SearchResult :=
  results.filterMap (processHit ctx)

/-- The descending score order used by `search_results.sort(key=...,
reverse=True)`. -/
def scoreDesc (a b : SearchResult) : Bool := decide (b.score ≤ a.score)

/-- Insertion step of the stable descending sort. -/
def insertDesc (r : SearchResult) : List SearchResult → List SearchResult
  | [] => [r]
  | x :: xs => if scoreDesc x r then x :: insertDesc r xs else r :: x :: xs

/-- Python `list.sort(key=lambda x: x.score, reverse=True)` is a stable sort
on the descending score order, modelled as a stable insertion sort. -/
def sortDesc : List SearchResult → List SearchResult
  | [] => []
  | x :: xs => insertDesc x (sortDesc xs)

/-- `MSSearch.search`: embed the query (empty embedding means return `[]`),
require a store with vector search, fetch raw hits, hydrate, sort by score
descending, truncate to `limit`.  Also returns the trace of
`search_by_vector` calls made. -/
def search (ctx : SearchCtx) (query : List Nat)
    (entry_types : Option (List EntryType))
    (temporal_filter : Option TemporalFilter) (limit : ℕ) :
    List SearchResult × List StoreCall :=
  let query_embedding := _get_embedding ctx.embedModel query
  if query_embedding = [] then ([], [])
  else
    match ctx.ms_store with
    | none => ([], [])
    | some st =>
      let results := st.searchByVector query_embedding limit entry_types
        temporal_filter
      let search_results := _results_to_entries ctx results
      ((sortDesc search_results).take limit,
       [⟨query_embedding, limit, entry_types, temporal_filter⟩])

/-- `MSSearch.conversation_context_search`: the standard search restricted to
the conversation entry type; when it returns no results, one direct
`search_by_vector` call is made with the same conversation-type and temporal
filters and its hits are hydrated (without the sort/limit post-processing).
Returns the results and the trace of store calls. -/
def conversation_context_search (ctx : SearchCtx) (message : List Nat)
    (temporal_filter : Option TemporalFilter) (limit : ℕ) :
    List SearchResult × List StoreCall :=
  let conversation_types := [EntryType.conversation]
  let first := search ctx message (some conversation_types) temporal_filter
    limit
  if first.1 ≠ [] then first
  else
    let query_embedding := _get_embedding ctx.embedModel message
    if query_embedding ≠ [] then
      match ctx.ms_store with
      | some st =>
        let direct := st.searchByVector query_embedding limit
          (some conversation_types) temporal_filter
        let call : StoreCall :=
          ⟨query_embedding, limit, some conversation_types, temporal_filter⟩
        if direct ≠ [] then
          (_results_to_entries ctx direct, first.2 ++ [call])
        else ([], first.2 ++ [call])
      | none => ([], first.2)
    else ([], first.2)

/-! ## ms_sqlite_store -/

/-- A row of the `entries` table (all columns TEXT; the id is the map key). -/
structure SqliteRow where
  content : List Nat
  entry_type : List Nat
  created_at : List Nat
  metadata : List Nat
deriving DecidableEq

/-- The `entries` table: `id` is the PRIMARY KEY, so the table is a keyed
map. -/
def SqliteDB : Type := List Nat → Option SqliteRow

/-- The external stdlib serialisation functions used by the SQLite store:
`datetime.isoformat` / `fromisoformat` and `json.dumps` / `loads` (`none`
models the call raising). -/
structure SqliteCtx where
  isoformat : ℕ → List Nat
  fromisoformat : List Nat → Option ℕ
  jsonDumps : MetaVal → List Nat
  jsonLoads : List Nat → Option MetaVal

/-- `MSSQLiteStore.save_ms_entry`: `INSERT OR REPLACE` keyed by `entry.id`;
`fail` models the body raising (rollback, return `False`). -/
def save_ms_entry (fail : Bool) (ctx : SqliteCtx) (db : SqliteDB)
    (entry : MSEntry) : SqliteDB × Bool :=
  if fail then (db, false)
  else
    (fun k =>
      if k = entry.id then
        some ⟨entry.content, entryTypeValue entry.entry_type,
          ctx.isoformat entry.created_at, ctx.jsonDumps entry.metadata⟩
      else db k,
     true)

/-- `MSSQLiteStore.get_ms_entry`: `SELECT ... WHERE id = ?`; a missing row
gives `None`, and any exception while rebuilding the `MSEntry` (JSON parse,
unknown entry type, timestamp parse) is caught and gives `None`. -/
def get_ms_entry (ctx : SqliteCtx) (db : SqliteDB) (entry_id : List Nat) :
    Option MSEntry :=
  match db entry_id with
  | none => none
  | some row =>
    match ctx.jsonLoads row.metadata, entryTypeOfString row.entry_type,
      ctx.fromisoformat row.created_at with
    | some md, some ety, some t => some ⟨entry_id, row.content, ety, t, md⟩
    | _, _, _ => none

/-! ## Proof-side views of the node upsert fold -/

/-- One `_store_person_entity` observation as a step on the node slot. -/
def personObsStep (st : Option EntityNode) (o : MergeObs) : Option EntityNode :=
  some (mergeEntityNode st o.name none o.score o.time)

/-- One `_store_technology_entity` observation as a step on the node slot. -/
def technologyObsStep (st : Option EntityNode) (o : MergeObs) :
    Option EntityNode :=
  some (mergeEntityNode st o.name (some o.category) o.score o.time)

/-- The `ON MATCH` branch of the entity upsert as a step on an existing
node. -/
def entityMatchStep (n : EntityNode) (o : MergeObs) : EntityNode :=
  { n with
    confidence := if o.score > n.confidence then o.score else n.confidence,
    last_seen := o.time,
    mention_count := n.mention_count + 1 }

/-- A concrete graph holding one person, organization and technology node and
one entry, used to instantiate the relationship-merge theorems. -/
def linkWitnessGraph : Graph :=
  _store_ms_entry false
    (_store_technology_entity false
      (_store_organization_entity false
        (_store_person_entity false graphEmpty (pyStr "Ada") (pyStr "ada")
          (1/2) 0)
        (pyStr "Acme") (pyStr "acme") (1/2) 0)
      (pyStr "Rust") (pyStr "rust") (1/2) (pyStr "programming_language") 0)
    (pyStr "e1") (pyStr "c1") (pyStr "title") 0

/-! ## Concrete instances used to instantiate the search theorems -/

/-- A SqliteCtx whose serialisation functions trivially round-trip. -/
def sqliteCtxW : SqliteCtx :=
  ⟨fun t => [t], fun l => l.head?, fun _ => [], fun _ => some []⟩

/-- A search environment with no embedding model. -/
def ctxNoModel : SearchCtx :=
  ⟨none, none, fun _ => none, fun _ => none, fun _ => none, fun x => x, []⟩

/-- A search environment whose encode call raises. -/
def ctxRaise : SearchCtx :=
  ⟨some (fun _ => none), none, fun _ => none, fun _ => none, fun _ => none,
   fun x => x, []⟩

/-- A search environment whose model produces a vector of the wrong
dimension. -/
def ctxBadLen : SearchCtx :=
  ⟨some (fun _ => some [0]), none, fun _ => none, fun _ => none,
   fun _ => none, fun x => x, []⟩

/-- A hit whose entry_id has no record in the store, with inline content and
entry type. -/
def hitMissing : VectorHit :=
  ⟨some (pyStr "missing"), some (pyStr "hello"), some (pyStr "conversation"),
   some 1, some (Sum.inr 5), none⟩

/-- A hit whose payload omits the score field. -/
def hitNoScore : VectorHit :=
  ⟨none, some (pyStr "hi"), some (pyStr "conversation"), none,
   some (Sum.inr 3), none⟩

/-- A well-formed embedding of the fixed dimension. -/
def embW : List ℚ := List.replicate vector_dim 0

/-- A store returning two hits with scores 1/4 and 1. -/
def storeTwoHits : VectorStore :=
  ⟨fun _ _ _ _ =>
    [⟨some (pyStr "a"), some (pyStr "A"), some (pyStr "conversation"),
      some 0, some (Sum.inr 0), none⟩,
     ⟨some (pyStr "b"), some (pyStr "B"), some (pyStr "conversation"),
      some 1, some (Sum.inr 0), none⟩]⟩

/-- A search environment over `storeTwoHits` with a working model. -/
def ctxTwo : SearchCtx :=
  ⟨some (fun _ => some embW), some storeTwoHits, fun _ => none,
   fun _ => none, fun _ => none, fun x => x, []⟩

/-- A hit returned only for an unfiltered (relaxed) store query. -/
def hitRelax : VectorHit :=
  ⟨none, some (pyStr "hi"), some (pyStr "conversation"), some 1,
   some (Sum.inr 0), none⟩

/-- A store that returns a hit only when the entry-type filter is absent:
a query filtered to the conversation type finds nothing. -/
def storeOnlyRelaxed : VectorStore :=
  ⟨fun _ _ et _ => if et = none then [hitRelax] else []⟩

/-- A search environment over `storeOnlyRelaxed` with a working model. -/
def ctxRelax : SearchCtx :=
  ⟨some (fun _ => some embW), some storeOnlyRelaxed, fun _ => none,
   fun _ => none, fun _ => none, fun x => x, []⟩

/-! ## Helper lemmas: Python string primitives -/

theorem pyToLower_idem (c : Nat) : pyToLower (pyToLower c) = pyToLower c := by
  by_cases h : 65 ≤ c ∧ c ≤ 90
  · have h2 : ¬ (65 ≤ c + 32 ∧ c + 32 ≤ 90) := by omega
    simp only [pyToLower, if_pos h, if_neg h2]
  · simp [pyToLower, h]

theorem pyIsSpace_pyToLower (c : Nat) :
    pyIsSpace (pyToLower c) = pyIsSpace c := by
  by_cases h : 65 ≤ c ∧ c ≤ 90
  · simp only [pyToLower, if_pos h, pyIsSpace, decide_eq_decide]
    omega
  · simp [pyToLower, h]

theorem pyLower_pyLower (l : List Nat) : pyLower (pyLower l) = pyLower l := by
  simp only [pyLower, List.map_map]
  exact List.map_congr_left (fun a _ => pyToLower_idem a)

theorem lstrip_idem (l : List Nat) : pyLStrip (pyLStrip l) = pyLStrip l := by
  unfold pyLStrip
  induction l with
  | nil => rfl
  | cons a t ih =>
    by_cases h : pyIsSpace a
    · simp [List.dropWhile_cons, h, ih]
    · simp [List.dropWhile_cons, h]

theorem lstrip_eq_self_of_prefix {m x : List Nat} (hm : pyLStrip m = m)
    (hx : x <+: m) : pyLStrip x = x := by
  cases x with
  | nil => rfl
  | cons a t =>
    by_cases h : pyIsSpace a
    · exfalso
      obtain ⟨r, hr⟩ := hx
      subst hr
      have h1 : pyLStrip (a :: t ++ r) = pyLStrip (t ++ r) := by
        simp [pyLStrip, List.dropWhile_cons, h]
      rw [hm] at h1
      have h2 : (t ++ r).length + 1 ≤ (t ++ r).length := by
        calc (t ++ r).length + 1 = (a :: t ++ r).length := by simp
          _ = (pyLStrip (t ++ r)).length := by rw [h1]
          _ ≤ (t ++ r).length :=
            ((List.dropWhile_suffix pyIsSpace).sublist).length_le
      omega
    · simp [pyLStrip, List.dropWhile_cons, h]

theorem rstrip_prefix_rel (l : List Nat) : pyRStrip l <+: l := by
  unfold pyRStrip
  have h := List.dropWhile_suffix (l := l.reverse) pyIsSpace
  have h2 := List.reverse_prefix.mpr h
  rwa [List.reverse_reverse] at h2

theorem rstrip_idem (l : List Nat) : pyRStrip (pyRStrip l) = pyRStrip l := by
  unfold pyRStrip
  rw [List.reverse_reverse]
  have := lstrip_idem l.reverse
  unfold pyLStrip at this
  rw [this]

theorem strip_idem (l : List Nat) : pyStrip (pyStrip l) = pyStrip l := by
  unfold pyStrip
  have hA : pyLStrip (pyRStrip (pyLStrip l)) = pyRStrip (pyLStrip l) :=
    lstrip_eq_self_of_prefix (lstrip_idem l) (rstrip_prefix_rel (pyLStrip l))
  rw [hA, rstrip_idem]

theorem lstrip_pyLower (l : List Nat) :
    pyLStrip (pyLower l) = pyLower (pyLStrip l) := by
  unfold pyLStrip pyLower
  rw [List.dropWhile_map]
  have h : pyIsSpace ∘ pyToLower = pyIsSpace := funext pyIsSpace_pyToLower
  rw [h]

theorem reverse_pyLower (l : List Nat) :
    (pyLower l).reverse = pyLower l.reverse := by
  unfold pyLower
  rw [List.map_reverse]

theorem rstrip_pyLower (l : List Nat) :
    pyRStrip (pyLower l) = pyLower (pyRStrip l) := by
  unfold pyRStrip
  rw [reverse_pyLower]
  have h := lstrip_pyLower l.reverse
  unfold pyLStrip at h
  rw [h, reverse_pyLower]

theorem strip_pyLower (l : List Nat) :
    pyStrip (pyLower l) = pyLower (pyStrip l) := by
  unfold pyStrip
  rw [lstrip_pyLower, rstrip_pyLower]

theorem lstrip_append_of_space {ws : List Nat}
    (h : ∀ c ∈ ws, pyIsSpace c = true) (m : List Nat) :
    pyLStrip (ws ++ m) = pyLStrip m := by
  induction ws with
  | nil => rfl
  | cons a t ih =>
    have ha : pyIsSpace a = true := h a (by simp)
    have ht : ∀ c ∈ t, pyIsSpace c = true := fun c hc => h c (by simp [hc])
    simp only [List.cons_append, pyLStrip, List.dropWhile_cons, ha, if_true]
    exact ih ht

theorem lstrip_eq_nil_of_space {ws : List Nat}
    (h : ∀ c ∈ ws, pyIsSpace c = true) : pyLStrip ws = [] := by
  have h2 := lstrip_append_of_space h ([] : List Nat)
  rw [List.append_nil] at h2
  exact h2

theorem rstrip_append_of_space {ws : List Nat}
    (h : ∀ c ∈ ws, pyIsSpace c = true) (m : List Nat) :
    pyRStrip (m ++ ws) = pyRStrip m := by
  unfold pyRStrip
  rw [List.reverse_append]
  have h2 : ∀ c ∈ ws.reverse, pyIsSpace c = true := fun c hc =>
    h c (List.mem_reverse.mp hc)
  have h3 := lstrip_append_of_space h2 m.reverse
  unfold pyLStrip at h3
  rw [h3]

theorem strip_pad {ws1 ws2 : List Nat}
    (h1 : ∀ c ∈ ws1, pyIsSpace c = true)
    (h2 : ∀ c ∈ ws2, pyIsSpace c = true) (l : List Nat) :
    pyStrip (ws1 ++ l ++ ws2) = pyStrip l := by
  unfold pyStrip
  rw [List.append_assoc, lstrip_append_of_space h1]
  rcases heq : pyLStrip l with _ | ⟨a, t⟩
  · have hnil : pyLStrip (l ++ ws2) = [] := by
      unfold pyLStrip at heq ⊢
      rw [List.dropWhile_append, heq]
      simp only [List.isEmpty_nil, if_true]
      exact lstrip_eq_nil_of_space h2
    rw [hnil]
  · have hcons : pyLStrip (l ++ ws2) = (a :: t) ++ ws2 := by
      unfold pyLStrip at heq ⊢
      rw [List.dropWhile_append, heq]
      simp
    rw [hcons, rstrip_append_of_space h2]

/-! ## C8: normalize_entity_name -/

/-- C8: `normalize_entity_name` is idempotent, and two strings differing only
in letter casing (equal after charwise lowercasing) or only in
leading/trailing whitespace produce the same normalized key. -/
theorem normalize_entity_name_laws :
    (∀ l, normalize_entity_name (normalize_entity_name l) =
      normalize_entity_name l)
    ∧ (∀ l₁ l₂, pyLower l₁ = pyLower l₂ →
        normalize_entity_name l₁ = normalize_entity_name l₂)
    ∧ (∀ ws1 ws2 l, (∀ c ∈ ws1, pyIsSpace c = true) →
        (∀ c ∈ ws2, pyIsSpace c = true) →
        normalize_entity_name (ws1 ++ l ++ ws2) = normalize_entity_name l) := by
  refine ⟨fun l => ?_, fun l₁ l₂ h => ?_, fun ws1 ws2 l h1 h2 => ?_⟩
  · unfold normalize_entity_name
    rw [strip_pyLower, strip_idem, pyLower_pyLower]
  · unfold normalize_entity_name
    rw [← strip_pyLower, ← strip_pyLower, h]
  · unfold normalize_entity_name
    rw [strip_pad h1 h2]

/-- C8 witness: the spec examples `"  OpenAI "`, `"openai"`, `"OpenAI"`. -/
theorem normalize_entity_name_laws_witness :
    normalize_entity_name (normalize_entity_name (pyStr "  OpenAI ")) =
      normalize_entity_name (pyStr "  OpenAI ")
    ∧ normalize_entity_name (pyStr "OpenAI") =
      normalize_entity_name (pyStr "openai")
    ∧ normalize_entity_name (pyStr "  " ++ pyStr "OpenAI" ++ pyStr " ") =
      normalize_entity_name (pyStr "OpenAI") :=
  ⟨normalize_entity_name_laws.1 _,
   normalize_entity_name_laws.2.1 _ _ (by decide),
   normalize_entity_name_laws.2.2 _ _ _ (by decide) (by decide)⟩

/-! ## Helper lemmas: the entity upsert fold -/

theorem if_gt_eq_max (a b : ℚ) : (if b > a then b else a) = max a b := by
  rcases le_or_lt b a with h | h
  · rw [if_neg (not_lt.mpr h), max_eq_left h]
  · rw [if_pos h, max_eq_right h.le]

theorem personObsStep_some (n : EntityNode) (o : MergeObs) :
    personObsStep (some n) o = some (entityMatchStep n o) := rfl

theorem technologyObsStep_some (n : EntityNode) (o : MergeObs) :
    technologyObsStep (some n) o = some (entityMatchStep n o) := rfl

theorem foldl_obsStep_some
    (step : Option EntityNode → MergeObs → Option EntityNode)
    (hstep : ∀ m o, step (some m) o = some (entityMatchStep m o))
    (n : EntityNode) (obs : List MergeObs) :
    obs.foldl step (some n) = some (obs.foldl entityMatchStep n) := by
  induction obs generalizing n with
  | nil => rfl
  | cons o t ih =>
    simp only [List.foldl_cons, hstep]
    exact ih (entityMatchStep n o)

theorem matchFold_mention_count (n : EntityNode) (obs : List MergeObs) :
    (obs.foldl entityMatchStep n).mention_count =
      n.mention_count + obs.length := by
  induction obs generalizing n with
  | nil => simp
  | cons o t ih =>
    simp only [List.foldl_cons, ih, entityMatchStep, List.length_cons]
    omega

theorem matchFold_first_seen (n : EntityNode) (obs : List MergeObs) :
    (obs.foldl entityMatchStep n).first_seen = n.first_seen := by
  induction obs generalizing n with
  | nil => rfl
  | cons o t ih => simp only [List.foldl_cons, ih, entityMatchStep]

theorem matchFold_name (n : EntityNode) (obs : List MergeObs) :
    (obs.foldl entityMatchStep n).name = n.name := by
  induction obs generalizing n with
  | nil => rfl
  | cons o t ih => simp only [List.foldl_cons, ih, entityMatchStep]

theorem matchFold_category (n : EntityNode) (obs : List MergeObs) :
    (obs.foldl entityMatchStep n).category = n.category := by
  induction obs generalizing n with
  | nil => rfl
  | cons o t ih => simp only [List.foldl_cons, ih, entityMatchStep]

theorem matchFold_last_seen (n : EntityNode) (obs : List MergeObs) :
    (obs.foldl entityMatchStep n).last_seen =
      (obs.map MergeObs.time).getLastD n.last_seen := by
  induction obs generalizing n with
  | nil => rfl
  | cons o t ih =>
    simp only [List.foldl_cons, ih, entityMatchStep, List.map_cons,
      List.getLastD_cons]

theorem matchFold_confidence (n : EntityNode) (obs : List MergeObs) :
    (obs.foldl entityMatchStep n).confidence =
      (obs.map MergeObs.score).foldl max n.confidence := by
  induction obs generalizing n with
  | nil => rfl
  | cons o t ih =>
    simp only [List.foldl_cons, ih, entityMatchStep, List.map_cons,
      if_gt_eq_max]

theorem foldl_max_bounds (c : ℚ) (l : List ℚ) :
    c ≤ l.foldl max c ∧ (∀ x ∈ l, x ≤ l.foldl max c)
    ∧ (l.foldl max c = c ∨ l.foldl max c ∈ l) := by
  induction l generalizing c with
  | nil => simp
  | cons a t ih =>
    obtain ⟨h1, h2, h3⟩ := ih (max c a)
    refine ⟨le_trans (le_max_left c a) h1, ?_, ?_⟩
    · intro x hx
      rcases List.mem_cons.mp hx with rfl | hx
      · exact le_trans (le_max_right c x) h1
      · exact h2 x hx
    · rcases h3 with h3 | h3
      · rcases max_choice c a with hm | hm
        · rw [List.foldl_cons, h3, hm]
          left; rfl
        · rw [List.foldl_cons, h3, hm]
          right; exact List.mem_cons_self a t
      · right; exact List.mem_cons_of_mem a h3

theorem mergePersonObs_persons (g : Graph) (key : List Nat)
    (obs : List MergeObs) (k : List Nat) :
    (mergePersonObs g key obs).persons k =
      if k = key then obs.foldl personObsStep (g.persons key)
      else g.persons k := by
  induction obs generalizing g with
  | nil =>
    simp only [mergePersonObs, List.foldl_nil]
    split
    · next h => rw [h]
    · rfl
  | cons o t ih =>
    simp only [mergePersonObs, List.foldl_cons] at ih ⊢
    rw [ih]
    simp only [_store_person_entity, if_neg Bool.false_ne_true, upd,
      personObsStep]
    split
    · next h => simp [h]
    · next h => simp [h]

theorem mergeTechnologyObs_technologies (g : Graph) (key : List Nat)
    (obs : List MergeObs) (k : List Nat) :
    (mergeTechnologyObs g key obs).technologies k =
      if k = key then obs.foldl technologyObsStep (g.technologies key)
      else g.technologies k := by
  induction obs generalizing g with
  | nil =>
    simp only [mergeTechnologyObs, List.foldl_nil]
    split
    · next h => rw [h]
    · rfl
  | cons o t ih =>
    simp only [mergeTechnologyObs, List.foldl_cons] at ih ⊢
    rw [ih]
    simp only [_store_technology_entity, if_neg Bool.false_ne_true, upd,
      technologyObsStep]
    split
    · next h => simp [h]
    · next h => simp [h]

/-! ## C1: accumulation invariants of the entity upsert -/

/-- C1: starting from a graph with no node for the key, a sequence of N
merge observations on one `(variant, normalized_key)` pair leaves exactly one
node at that key (all other keys untouched), with `mention_count = N`,
`confidence` the maximum of the observed confidences, `first_seen` the first
observation timestamp and `last_seen` the final observation timestamp; shown
for the Person and Technology variants cited by the claim. -/
theorem entity_merge_accumulation (g : Graph) (key : List Nat) (o : MergeObs)
    (rest : List MergeObs) :
    (g.persons key = none →
      ∃ n, (mergePersonObs g key (o :: rest)).persons key = some n
        ∧ n.mention_count = (o :: rest).length
        ∧ (∀ x ∈ o :: rest, x.score ≤ n.confidence)
        ∧ (∃ x ∈ o :: rest, n.confidence = x.score)
        ∧ n.first_seen = o.time
        ∧ n.last_seen = ((o :: rest).map MergeObs.time).getLastD 0
        ∧ ∀ k, k ≠ key →
            (mergePersonObs g key (o :: rest)).persons k = g.persons k)
    ∧ (g.technologies key = none →
      ∃ n, (mergeTechnologyObs g key (o :: rest)).technologies key = some n
        ∧ n.mention_count = (o :: rest).length
        ∧ (∀ x ∈ o :: rest, x.score ≤ n.confidence)
        ∧ (∃ x ∈ o :: rest, n.confidence = x.score)
        ∧ n.first_seen = o.time
        ∧ n.last_seen = ((o :: rest).map MergeObs.time).getLastD 0
        ∧ ∀ k, k ≠ key →
            (mergeTechnologyObs g key (o :: rest)).technologies k =
              g.technologies k) := by
  constructor
  · intro h
    have hpt := mergePersonObs_persons g key (o :: rest) key
    rw [if_pos rfl, List.foldl_cons] at hpt
    have hstep : personObsStep (g.persons key) o =
        some (⟨o.name, none, o.score, o.time, o.time, 1⟩ : EntityNode) := by
      rw [h]; rfl
    rw [hstep, foldl_obsStep_some personObsStep personObsStep_some] at hpt
    obtain ⟨hub, hall, hmem⟩ :=
      foldl_max_bounds o.score (rest.map MergeObs.score)
    refine ⟨_, hpt, ?_, ?_, ?_, ?_, ?_, ?_⟩
    · rw [matchFold_mention_count]
      simp only [List.length_cons]
      omega
    · rw [matchFold_confidence]
      intro x hx
      rcases List.mem_cons.mp hx with rfl | hx
      · exact hub
      · exact hall x.score (List.mem_map_of_mem MergeObs.score hx)
    · rw [matchFold_confidence]
      rcases hmem with hm | hm
      · exact ⟨o, List.mem_cons_self o rest, hm⟩
      · obtain ⟨x, hx, hxe⟩ := List.mem_map.mp hm
        exact ⟨x, List.mem_cons_of_mem o hx, hxe.symm⟩
    · rw [matchFold_first_seen]
    · rw [matchFold_last_seen, List.map_cons, List.getLastD_cons]
    · intro k hk
      rw [mergePersonObs_persons, if_neg hk]
  · intro h
    have hpt := mergeTechnologyObs_technologies g key (o :: rest) key
    rw [if_pos rfl, List.foldl_cons] at hpt
    have hstep : technologyObsStep (g.technologies key) o =
        some (⟨o.name, some o.category, o.score, o.time, o.time, 1⟩ :
          EntityNode) := by
      rw [h]; rfl
    rw [hstep, foldl_obsStep_some technologyObsStep technologyObsStep_some]
      at hpt
    obtain ⟨hub, hall, hmem⟩ :=
      foldl_max_bounds o.score (rest.map MergeObs.score)
    refine ⟨_, hpt, ?_, ?_, ?_, ?_, ?_, ?_⟩
    · rw [matchFold_mention_count]
      simp only [List.length_cons]
      omega
    · rw [matchFold_confidence]
      intro x hx
      rcases List.mem_cons.mp hx with rfl | hx
      · exact hub
      · exact hall x.score (List.mem_map_of_mem MergeObs.score hx)
    · rw [matchFold_confidence]
      rcases hmem with hm | hm
      · exact ⟨o, List.mem_cons_self o rest, hm⟩
      · obtain ⟨x, hx, hxe⟩ := List.mem_map.mp hm
        exact ⟨x, List.mem_cons_of_mem o hx, hxe.symm⟩
    · rw [matchFold_first_seen]
    · rw [matchFold_last_seen, List.map_cons, List.getLastD_cons]
    · intro k hk
      rw [mergeTechnologyObs_technologies, if_neg hk]

/-- C1 witness: two concrete observations of the same person key. -/
theorem entity_merge_accumulation_witness :
    ∃ n, (mergePersonObs graphEmpty (pyStr "ada lovelace")
        [⟨pyStr "Ada Lovelace", [], 1/2, 10⟩,
         ⟨pyStr "ADA LOVELACE", [], 3/4, 20⟩]).persons
        (pyStr "ada lovelace") = some n
      ∧ n.mention_count = 2
      ∧ (∀ x ∈ [(⟨pyStr "Ada Lovelace", [], 1/2, 10⟩ : MergeObs),
          ⟨pyStr "ADA LOVELACE", [], 3/4, 20⟩], x.score ≤ n.confidence)
      ∧ n.first_seen = 10
      ∧ n.last_seen = 20 := by
  obtain ⟨n, h1, h2, h3, h4, h5, h6, h7⟩ :=
    (entity_merge_accumulation graphEmpty (pyStr "ada lovelace")
      ⟨pyStr "Ada Lovelace", [], 1/2, 10⟩
      [⟨pyStr "ADA LOVELACE", [], 3/4, 20⟩]).1 rfl
  exact ⟨n, h1, h2, h3, h5, h6⟩

/-! ## C4: relationship merge idempotence -/

theorem store_person_relationship_ok (g : Graph) (key eid : List Nat) (c : ℚ)
    (hp : (g.persons key).isSome = true)
    (he : (g.entries eid).isSome = true) :
    _store_person_relationship false g key eid c =
      { g with
          discussedIn :=
            upd2 g.discussedIn (key, eid)
              (mergeDiscussedInEdge (g.discussedIn (key, eid)) c) } := by
  unfold _store_person_relationship
  rw [if_neg Bool.false_ne_true, if_pos (by rw [hp, he]; rfl)]

theorem store_org_relationship_ok (g : Graph) (key eid : List Nat) (c : ℚ)
    (ho : (g.organizations key).isSome = true)
    (he : (g.entries eid).isSome = true) :
    _store_org_relationship false g key eid c =
      { g with
          orgIn :=
            upd2 g.orgIn (key, eid)
              (mergeOrgInEdge (g.orgIn (key, eid)) c) } := by
  unfold _store_org_relationship
  rw [if_neg Bool.false_ne_true, if_pos (by rw [ho, he]; rfl)]

theorem store_tech_relationship_ok (g : Graph) (key eid : List Nat) (c : ℚ)
    (ht : (g.technologies key).isSome = true)
    (he : (g.entries eid).isSome = true) :
    _store_tech_relationship false g key eid c =
      { g with
          techIn :=
            upd2 g.techIn (key, eid)
              (mergeTechInEdge (g.techIn (key, eid)) c) } := by
  unfold _store_tech_relationship
  rw [if_neg Bool.false_ne_true, if_pos (by rw [ht, he]; rfl)]

/-- C4: linking the same entity to the same entry twice leaves exactly one
edge (all other edge slots untouched); the repeated Person `DISCUSSED_IN`
merge raises confidence to the maximum observed and bumps `mentioned_count`
to 2, while the Organization `ORG_IN` and Technology `TECH_IN` merges raise
confidence only; the descriptive attributes keep their creation values. -/
theorem link_entity_to_entry_merge (g : Graph) (key eid : List Nat)
    (c1 c2 : ℚ) :
    ((g.persons key).isSome = true → (g.entries eid).isSome = true →
      g.discussedIn (key, eid) = none →
      (_store_person_relationship false
          (_store_person_relationship false g key eid c1) key eid
          c2).discussedIn (key, eid) =
        some ⟨max c1 c2, pyStr "conversation", pyStr "neutral", 2⟩
      ∧ ∀ q, q ≠ (key, eid) →
        (_store_person_relationship false
            (_store_person_relationship false g key eid c1) key eid
            c2).discussedIn q = g.discussedIn q)
    ∧ ((g.organizations key).isSome = true → (g.entries eid).isSome = true →
      g.orgIn (key, eid) = none →
      (_store_org_relationship false
          (_store_org_relationship false g key eid c1) key eid
          c2).orgIn (key, eid) =
        some ⟨max c1 c2, pyStr "conversation", pyStr "mentioned"⟩
      ∧ ∀ q, q ≠ (key, eid) →
        (_store_org_relationship false
            (_store_org_relationship false g key eid c1) key eid
            c2).orgIn q = g.orgIn q)
    ∧ ((g.technologies key).isSome = true → (g.entries eid).isSome = true →
      g.techIn (key, eid) = none →
      (_store_tech_relationship false
          (_store_tech_relationship false g key eid c1) key eid
          c2).techIn (key, eid) =
        some ⟨max c1 c2, pyStr "discussion", pyStr "unknown"⟩
      ∧ ∀ q, q ≠ (key, eid) →
        (_store_tech_relationship false
            (_store_tech_relationship false g key eid c1) key eid
            c2).techIn q = g.techIn q) := by
  refine ⟨fun hp he h0 => ?_, fun ho he h0 => ?_, fun ht he h0 => ?_⟩
  · rw [store_person_relationship_ok g key eid c1 hp he,
      store_person_relationship_ok
        { g with
            discussedIn :=
              upd2 g.discussedIn (key, eid)
                (mergeDiscussedInEdge (g.discussedIn (key, eid)) c1) }
        key eid c2 hp he]
    constructor
    · simp [upd2, h0, mergeDiscussedInEdge, if_gt_eq_max]
    · intro q hq
      simp [upd2, if_neg hq]
  · rw [store_org_relationship_ok g key eid c1 ho he,
      store_org_relationship_ok
        { g with
            orgIn :=
              upd2 g.orgIn (key, eid)
                (mergeOrgInEdge (g.orgIn (key, eid)) c1) }
        key eid c2 ho he]
    constructor
    · simp [upd2, h0, mergeOrgInEdge, if_gt_eq_max]
    · intro q hq
      simp [upd2, if_neg hq]
  · rw [store_tech_relationship_ok g key eid c1 ht he,
      store_tech_relationship_ok
        { g with
            techIn :=
              upd2 g.techIn (key, eid)
                (mergeTechInEdge (g.techIn (key, eid)) c1) }
        key eid c2 ht he]
    constructor
    · simp [upd2, h0, mergeTechInEdge, if_gt_eq_max]
    · intro q hq
      simp [upd2, if_neg hq]

/-- C4 witness: double links on a concrete graph for all three variants. -/
theorem link_entity_to_entry_merge_witness :
    (_store_person_relationship false
        (_store_person_relationship false linkWitnessGraph (pyStr "ada")
          (pyStr "e1") (1/2)) (pyStr "ada") (pyStr "e1")
        (3/4)).discussedIn (pyStr "ada", pyStr "e1") =
      some ⟨max (1/2) (3/4), pyStr "conversation", pyStr "neutral", 2⟩
    ∧ (_store_org_relationship false
        (_store_org_relationship false linkWitnessGraph (pyStr "acme")
          (pyStr "e1") (1/2)) (pyStr "acme") (pyStr "e1")
        (3/4)).orgIn (pyStr "acme", pyStr "e1") =
      some ⟨max (1/2) (3/4), pyStr "conversation", pyStr "mentioned"⟩
    ∧ (_store_tech_relationship false
        (_store_tech_relationship false linkWitnessGraph (pyStr "rust")
          (pyStr "e1") (1/2)) (pyStr "rust") (pyStr "e1")
        (3/4)).techIn (pyStr "rust", pyStr "e1") =
      some ⟨max (1/2) (3/4), pyStr "discussion", pyStr "unknown"⟩ :=
  ⟨((link_entity_to_entry_merge linkWitnessGraph (pyStr "ada") (pyStr "e1")
      (1/2) (3/4)).1 (by decide) (by decide) (by decide)).1,
   ((link_entity_to_entry_merge linkWitnessGraph (pyStr "acme") (pyStr "e1")
      (1/2) (3/4)).2.1 (by decide) (by decide) (by decide)).1,
   ((link_entity_to_entry_merge linkWitnessGraph (pyStr "rust") (pyStr "e1")
      (1/2) (3/4)).2.2 (by decide) (by decide) (by decide)).1⟩

/-! ## C2: failure semantics of the batch -/

theorem processEntity_snd (fm fl fm' fl' : Bool) (g g' : Graph)
    (e : GlinerEntity) (eid : List Nat) (time time' : ℕ) :
    (processEntity fm fl g e eid time).2 =
      (processEntity fm' fl' g' e eid time').2 := by
  unfold processEntity
  dsimp only
  repeat' split
  all_goals rfl

theorem processEntities_snd (fails fails' : ℕ → Bool × Bool) (i i' : ℕ)
    (g g' : Graph) (es : List GlinerEntity) (eid : List Nat)
    (time time' : ℕ) :
    (processEntities fails i g es eid time).2 =
      (processEntities fails' i' g' es eid time').2 := by
  induction es generalizing i i' g g' with
  | nil => rfl
  | cons e rest ih =>
    have h1 := processEntity_snd (fails i).1 (fails i).2 (fails' i').1
      (fails' i').2 g g' e eid time time'
    have h2 := ih (i + 1) (i' + 1)
      (processEntity (fails i).1 (fails i).2 g e eid time).1
      (processEntity (fails' i').1 (fails' i').2 g' e eid time').1
    simp only [processEntities]
    rw [h1, h2]

/-- C2 counterexample: a batch of two person entities where the node upsert
for the first one fails.  The batch continues (the second person node is
created, the first is not), yet the returned counts are `person = 2`: the
total equals the number of non-empty entities in the batch, so the caller
cannot detect the single-entity failure from the counts. -/
theorem batch_counts_equal_size_despite_failure :
    (store_entities_in_graph false false (fun i => (decide (i = 0), false))
        graphEmpty
        [⟨pyStr "person", pyStr "Jane Doe", 9/10⟩,
         ⟨pyStr "person", pyStr "Bob", 8/10⟩]
        (pyStr "c1") (pyStr "e1") (pyStr "t") 0).2.1 = ⟨2, 0, 0, 0⟩
    ∧ (store_entities_in_graph false false (fun i => (decide (i = 0), false))
        graphEmpty
        [⟨pyStr "person", pyStr "Jane Doe", 9/10⟩,
         ⟨pyStr "person", pyStr "Bob", 8/10⟩]
        (pyStr "c1") (pyStr "e1") (pyStr "t") 0).1.persons
        (pyStr "jane doe") = none
    ∧ (store_entities_in_graph false false (fun i => (decide (i = 0), false))
        graphEmpty
        [⟨pyStr "person", pyStr "Jane Doe", 9/10⟩,
         ⟨pyStr "person", pyStr "Bob", 8/10⟩]
        (pyStr "c1") (pyStr "e1") (pyStr "t") 0).1.persons
        (pyStr "bob") ≠ none
    ∧ ¬ ((2 : ℕ) + 0 + 0 + 0 < 2) := by
  refine ⟨by decide, by decide, by decide, by decide⟩

/-- C2 amended: a failure merging or linking a single entity never aborts the
batch — the returned counts and the trace of issued store calls are exactly
those of a failure-free run on any starting graph — but for the same reason
the counts do not reflect the failure: they count routed entities, not
successful stores, so the caller cannot detect a single-entity failure from
the counts. -/
theorem store_entities_counts_ignore_failures (entryFail entryFail' : Bool)
    (fails fails' : ℕ → Bool × Bool) (g g' : Graph)
    (es : List GlinerEntity) (cid eid ttl : List Nat) (time time' : ℕ) :
    (store_entities_in_graph false entryFail fails g es cid eid ttl
      time).2 =
    (store_entities_in_graph false entryFail' fails' g' es cid eid ttl
      time').2 := by
  simp only [store_entities_in_graph, if_neg Bool.false_ne_true]
  rw [processEntities_snd fails fails' 0 0
    (_store_ms_entry entryFail g eid cid ttl time)
    (_store_ms_entry entryFail' g' eid cid ttl time') es eid time time']

/-! ## C3: label routing -/

/-- C3 counterexample: an entity whose label is neither `person` nor
`organization` nor one of `location` / `technology` / `misc` (here `event`),
with non-empty text, is not routed anywhere: no merge or link call is made,
no Technology or Topic node is created and no count is incremented. -/
theorem unrecognized_label_skipped :
    (processEntity false false graphEmpty
      ⟨pyStr "event", pyStr "Olympics", 9/10⟩ (pyStr "e1") 0).2 =
      (zeroCounts, [])
    ∧ (processEntity false false graphEmpty
        ⟨pyStr "event", pyStr "Olympics", 9/10⟩ (pyStr "e1")
        0).1.technologies (normalize_entity_name (pyStr "Olympics")) = none
    ∧ (processEntity false false graphEmpty
        ⟨pyStr "event", pyStr "Olympics", 9/10⟩ (pyStr "e1")
        0).1.topics (normalize_entity_name (pyStr "Olympics")) = none
    ∧ pyStrip (pyStr "Olympics") ≠ []
    ∧ pyLower (pyStr "event") ≠ pyStr "person"
    ∧ pyLower (pyStr "event") ≠ pyStr "organization" := by
  refine ⟨by decide, by decide, by decide, by decide, by decide, by decide⟩

/-- C3 amended: only the labels `location`, `technology` and `misc` are
routed through `_is_technology_term` (to a Technology node and `TECH_IN`
link when it holds, to a Topic node and `TOPIC_IN` link otherwise, with
exactly one merge call and one link call each); an entity with any other
label outside person/organization is silently skipped. -/
theorem ambiguous_label_routing (g : Graph) (e : GlinerEntity)
    (eid : List Nat) (time : ℕ) :
    (pyStrip e.text ≠ [] →
      pyLower e.label ∈ [pyStr "location", pyStr "technology", pyStr "misc"] →
      (_is_technology_term (pyStrip e.text) = true →
        processEntity false false g e eid time =
          (_store_tech_relationship false
            (_store_technology_entity false g (pyStrip e.text)
              (normalize_entity_name (pyStrip e.text)) e.score
              (categorize_entity (pyStrip e.text) (pyStr "technology")) time)
            (normalize_entity_name (pyStrip e.text)) eid e.score,
           ⟨0, 0, 1, 0⟩,
           [GraphOp.mergeTechnology (pyStrip e.text)
              (normalize_entity_name (pyStrip e.text))
              (categorize_entity (pyStrip e.text) (pyStr "technology"))
              e.score,
            GraphOp.linkTechnology (normalize_entity_name (pyStrip e.text))
              eid e.score]))
      ∧ (_is_technology_term (pyStrip e.text) = false →
        processEntity false false g e eid time =
          (_store_topic_relationship false
            (_store_topic_entity false g (pyStrip e.text)
              (normalize_entity_name (pyStrip e.text)) e.score
              (categorize_entity (pyStrip e.text) (pyStr "topic")) time)
            (normalize_entity_name (pyStrip e.text)) eid e.score,
           ⟨0, 0, 0, 1⟩,
           [GraphOp.mergeTopic (pyStrip e.text)
              (normalize_entity_name (pyStrip e.text))
              (categorize_entity (pyStrip e.text) (pyStr "topic")) e.score,
            GraphOp.linkTopic (normalize_entity_name (pyStrip e.text))
              eid e.score])))
    ∧ (pyLower e.label ∉ [pyStr "person", pyStr "organization",
        pyStr "location", pyStr "technology", pyStr "misc"] →
      processEntity false false g e eid time = (g, zeroCounts, [])) := by
  constructor
  · intro htext hmem
    simp only [List.mem_cons, List.not_mem_nil, or_false] at hmem
    constructor <;> intro htech <;>
      rcases hmem with h | h | h <;>
      simp +decide [processEntity, htext, h, htech]
  · intro hmem
    simp only [List.mem_cons, List.not_mem_nil, or_false, not_or] at hmem
    obtain ⟨h1, h2, h3, h4, h5⟩ := hmem
    by_cases htext : pyStrip e.text = [] <;>
      simp [processEntity, htext, h1, h2, h3, h4, h5]

/-- C3 witness: a `misc`-labelled technology term and a `date`-labelled
entity. -/
theorem ambiguous_label_routing_witness :
    processEntity false false graphEmpty
      ⟨pyStr "misc", pyStr "Docker", 9/10⟩ (pyStr "e1") 0 =
      (_store_tech_relationship false
        (_store_technology_entity false graphEmpty
          (pyStrip (pyStr "Docker"))
          (normalize_entity_name (pyStrip (pyStr "Docker"))) (9/10)
          (categorize_entity (pyStrip (pyStr "Docker")) (pyStr "technology"))
          0)
        (normalize_entity_name (pyStrip (pyStr "Docker"))) (pyStr "e1")
        (9/10),
       ⟨0, 0, 1, 0⟩,
       [GraphOp.mergeTechnology (pyStrip (pyStr "Docker"))
          (normalize_entity_name (pyStrip (pyStr "Docker")))
          (categorize_entity (pyStrip (pyStr "Docker")) (pyStr "technology"))
          (9/10),
        GraphOp.linkTechnology
          (normalize_entity_name (pyStrip (pyStr "Docker"))) (pyStr "e1")
          (9/10)])
    ∧ processEntity false false graphEmpty
        ⟨pyStr "date", pyStr "Tuesday", 1/2⟩ (pyStr "e1") 0 =
      (graphEmpty, zeroCounts, []) :=
  ⟨((ambiguous_label_routing graphEmpty ⟨pyStr "misc", pyStr "Docker", 9/10⟩
      (pyStr "e1") 0).1 (by decide) (by decide)).1 (by decide),
   (ambiguous_label_routing graphEmpty ⟨pyStr "date", pyStr "Tuesday", 1/2⟩
      (pyStr "e1") 0).2 (by decide)⟩

/-! ## C9: SQLite save/get round trip -/

theorem entryType_roundtrip (t : EntryType) :
    entryTypeOfString (entryTypeValue t) = some t := by
  cases t <;> rfl

/-- C9: saving an entry and retrieving it by its id returns a record with
identical `content` and `entry_type`, provided the external stdlib
serialisers round-trip (`json.loads ∘ json.dumps` and
`fromisoformat ∘ isoformat` succeed, which the stdlib guarantees). -/
theorem save_get_roundtrip (ctx : SqliteCtx) (db : SqliteDB)
    (entry : MSEntry)
    (hjson : ∀ m, ∃ v, ctx.jsonLoads (ctx.jsonDumps m) = some v)
    (htime : ∀ t, ∃ u, ctx.fromisoformat (ctx.isoformat t) = some u) :
    ∃ e, get_ms_entry ctx (save_ms_entry false ctx db entry).1 entry.id =
        some e
      ∧ e.content = entry.content ∧ e.entry_type = entry.entry_type := by
  obtain ⟨md, hmd⟩ := hjson entry.metadata
  obtain ⟨t, ht⟩ := htime entry.created_at
  unfold save_ms_entry get_ms_entry
  rw [if_neg Bool.false_ne_true]
  dsimp only
  rw [if_pos rfl]
  dsimp only
  rw [hmd, ht, entryType_roundtrip]
  exact ⟨_, rfl, rfl, rfl⟩

/-- C9 witness: a concrete entry saved and re-read through `sqliteCtxW`. -/
theorem save_get_roundtrip_witness :
    ∃ e, get_ms_entry sqliteCtxW
        (save_ms_entry false sqliteCtxW (fun _ => none)
          ⟨pyStr "e1", pyStr "hello", EntryType.conversation, 42, []⟩).1
        (pyStr "e1") = some e
      ∧ e.content = pyStr "hello" ∧ e.entry_type = EntryType.conversation :=
  save_get_roundtrip sqliteCtxW (fun _ => none)
    ⟨pyStr "e1", pyStr "hello", EntryType.conversation, 42, []⟩
    (fun _ => ⟨[], rfl⟩) (fun t => ⟨t, rfl⟩)

/-! ## C5: graceful degradation of search on embedding failure -/

/-- C5: whenever the embedding step fails — no model configured, the encode
call raises, or the produced vector has the wrong dimension — `search`
returns the empty result list instead of raising. -/
theorem search_degrades_on_embedding_failure (ctx : SearchCtx)
    (q : List Nat) (et : Option (List EntryType))
    (tf : Option TemporalFilter) (lim : ℕ) :
    (ctx.embedModel = none → (search ctx q et tf lim).1 = [])
    ∧ (∀ f, ctx.embedModel = some f → f q = none →
        (search ctx q et tf lim).1 = [])
    ∧ (∀ f v, ctx.embedModel = some f → f q = some v →
        v.length ≠ vector_dim → (search ctx q et tf lim).1 = []) := by
  have hsearch : _get_embedding ctx.embedModel q = [] →
      (search ctx q et tf lim).1 = [] := by
    intro h
    unfold search
    dsimp only
    rw [if_pos h]
  refine ⟨fun h => hsearch ?_, fun f hf hq => hsearch ?_,
    fun f v hf hv hlen => hsearch ?_⟩
  · unfold _get_embedding
    rw [h]
  · unfold _get_embedding
    rw [hf]
    dsimp only
    rw [hq]
  · unfold _get_embedding
    rw [hf]
    dsimp only
    rw [hv]
    dsimp only
    rw [if_neg (fun hc => hlen hc.2)]

/-- C5 witness: all three failure modes at a concrete query. -/
theorem search_degrades_witness :
    (search ctxNoModel (pyStr "machine learning") none none 5).1 = []
    ∧ (search ctxRaise (pyStr "machine learning") none none 5).1 = []
    ∧ (search ctxBadLen (pyStr "machine learning") none none 5).1 = [] :=
  ⟨(search_degrades_on_embedding_failure ctxNoModel
      (pyStr "machine learning") none none 5).1 rfl,
   (search_degrades_on_embedding_failure ctxRaise
      (pyStr "machine learning") none none 5).2.1 (fun _ => none) rfl rfl,
   (search_degrades_on_embedding_failure ctxBadLen
      (pyStr "machine learning") none none 5).2.2 (fun _ => some [0]) [0]
      rfl rfl (by decide)⟩

/-! ## C6: hydration fallback in _results_to_entries -/

/-- C6: when full hydration fails (missing or falsy entry_id, or the store
lookup fails) but the hit carries truthy inline `content` and `entry_type`
and the minimal-entry construction succeeds, the hit yields a minimal record
built from the inline fields; a hit is dropped exactly when both the
hydration and the inline construction fail; and a result is in the output
list exactly when some hit produced it. -/
theorem hit_fallback_and_drop (ctx : SearchCtx) (hit : VectorHit) :
    (∀ c et ety ts, hydrationOf ctx hit = none → hit.content = some c →
      c ≠ [] → hit.entry_type = some et → et ≠ [] →
      entryTypeOfString et = some ety → parsedTime ctx hit = some ts →
      processHit ctx hit =
        some ⟨⟨minimalId ctx hit c, c, ety, ts, parsedMetadata ctx hit⟩,
          hitScore hit, pyStr "vector", [], []⟩)
    ∧ (processHit ctx hit = none ↔
        hydrationOf ctx hit = none
          ∧ minimalResult ctx hit (hitScore hit) = none)
    ∧ (∀ hits r, r ∈ _results_to_entries ctx hits ↔
        ∃ h ∈ hits, processHit ctx h = some r) := by
  refine ⟨?_, ?_, ?_⟩
  · intro c et ety ts hnone hc hcne het hetne hety hts
    unfold processHit
    rw [hnone]
    unfold minimalResult
    rw [hc, het]
    dsimp only
    rw [if_pos ⟨hcne, hetne⟩, hts, hety]
  · unfold processHit
    cases hh : hydrationOf ctx hit with
    | some e => simp [hh]
    | none => simp [hh]
  · intro hits r
    unfold _results_to_entries
    rw [List.mem_filterMap]

/-- C6 witness: a hit whose entry_id has no record but whose payload carries
inline content and entry type yields a minimal record. -/
theorem hit_fallback_and_drop_witness :
    processHit ctxNoModel hitMissing =
      some ⟨⟨minimalId ctxNoModel hitMissing (pyStr "hello"), pyStr "hello",
        EntryType.conversation, 5, parsedMetadata ctxNoModel hitMissing⟩,
        hitScore hitMissing, pyStr "vector", [], []⟩ :=
  (hit_fallback_and_drop ctxNoModel hitMissing).1 (pyStr "hello")
    (pyStr "conversation") EntryType.conversation 5 rfl rfl (by decide) rfl
    (by decide) (by decide) rfl

/-! ## C10: default score and ranking -/

theorem mem_insertDesc (r y : SearchResult) (l : List SearchResult) :
    y ∈ insertDesc r l ↔ y = r ∨ y ∈ l := by
  induction l with
  | nil => simp [insertDesc]
  | cons x xs ih =>
    unfold insertDesc
    split
    · simp only [List.mem_cons, ih]
      try tauto
    · simp only [List.mem_cons]
      try tauto

theorem pairwise_insertDesc (r : SearchResult) (l : List SearchResult)
    (h : List.Pairwise (fun a b => scoreDesc a b = true) l) :
    List.Pairwise (fun a b => scoreDesc a b = true) (insertDesc r l) := by
  induction l with
  | nil => simp [insertDesc]
  | cons x xs ih =>
    rcases List.pairwise_cons.mp h with ⟨hx, hxs⟩
    unfold insertDesc
    split
    · next hxr =>
      refine List.pairwise_cons.mpr ⟨?_, ih hxs⟩
      intro y hy
      rcases (mem_insertDesc r y xs).mp hy with rfl | hy
      · exact hxr
      · exact hx y hy
    · next hxr =>
      have hrx : scoreDesc r x = true := by
        unfold scoreDesc at hxr ⊢
        exact decide_eq_true_eq.mpr
          (le_of_not_le (fun hle => hxr (decide_eq_true_eq.mpr hle)))
      refine List.pairwise_cons.mpr ⟨?_, h⟩
      intro y hy
      rcases List.mem_cons.mp hy with rfl | hy
      · exact hrx
      · have hxy := hx y hy
        unfold scoreDesc at hrx hxy ⊢
        exact decide_eq_true_eq.mpr
          (le_trans (decide_eq_true_eq.mp hxy) (decide_eq_true_eq.mp hrx))

theorem pairwise_sortDesc (l : List SearchResult) :
    List.Pairwise (fun a b => scoreDesc a b = true) (sortDesc l) := by
  induction l with
  | nil => exact List.Pairwise.nil
  | cons x xs ih => exact pairwise_insertDesc x (sortDesc xs) ih

/-- C10: a hit whose payload omits the score field is assigned the default
score 1/2, and the output of `search` is ordered by non-increasing score, so
such a hit ranks above any hit whose reported similarity is below 1/2. -/
theorem default_score_and_ranking (ctx : SearchCtx) (hit : VectorHit)
    (q : List Nat) (et : Option (List EntryType))
    (tf : Option TemporalFilter) (lim : ℕ) :
    (hit.score = none → ∀ r, processHit ctx hit = some r →
      r.score = 1 / 2)
    ∧ (∀ pre mid suf a b,
        (search ctx q et tf lim).1 = pre ++ a :: (mid ++ b :: suf) →
        b.score ≤ a.score) := by
  constructor
  · intro h r hr
    have hs : hitScore hit = 1 / 2 := by
      unfold hitScore
      rw [h]
      rfl
    unfold processHit at hr
    cases hh : hydrationOf ctx hit with
    | some e =>
      rw [hh] at hr
      dsimp only at hr
      cases hr
      exact hs
    | none =>
      rw [hh] at hr
      dsimp only at hr
      unfold minimalResult at hr
      repeat' split at hr
      all_goals first
        | (cases hr; exact hs)
        | exact Option.noConfusion hr
  · intro pre mid suf a b hsplit
    unfold search at hsplit
    dsimp only at hsplit
    by_cases hq : _get_embedding ctx.embedModel q = []
    · rw [if_pos hq] at hsplit
      have hlen := congrArg List.length hsplit
      simp [List.length_append] at hlen
      exact absurd hlen (by omega)
    · rw [if_neg hq] at hsplit
      cases hst : ctx.ms_store with
      | none =>
        rw [hst] at hsplit
        have hlen := congrArg List.length hsplit
        simp [List.length_append] at hlen
        exact absurd hlen (by omega)
      | some st =>
        rw [hst] at hsplit
        dsimp only at hsplit
        have hsorted := pairwise_sortDesc
          (_results_to_entries ctx
            (st.searchByVector (_get_embedding ctx.embedModel q) lim et tf))
        have htake := List.Pairwise.sublist
          (List.take_sublist lim _) hsorted
        rw [hsplit] at htake
        have h1 := (List.pairwise_append.mp htake).2.1
        have h2 := List.rel_of_pairwise_cons h1
          (show b ∈ mid ++ b :: suf by simp)
        exact decide_eq_true_eq.mp h2

set_option maxRecDepth 8000 in
/-- C10 witness: a concrete score-less hit gets score 1/2, and in a concrete
two-result search the later element has the smaller score. -/
theorem default_score_and_ranking_witness :
    (∃ r, processHit ctxNoModel hitNoScore = some r ∧ r.score = 1 / 2)
    ∧ (⟨⟨pyStr "a", pyStr "A", EntryType.conversation, 0, []⟩, 0,
        pyStr "vector", [], []⟩ : SearchResult).score ≤
      (⟨⟨pyStr "b", pyStr "B", EntryType.conversation, 0, []⟩, 1,
        pyStr "vector", [], []⟩ : SearchResult).score :=
  ⟨⟨⟨⟨pyStr "hi", pyStr "hi", EntryType.conversation, 3, []⟩, 1/2,
      pyStr "vector", [], []⟩, by rfl,
    (default_score_and_ranking ctxNoModel hitNoScore (pyStr "q") none none
      5).1 rfl _ (by rfl)⟩,
   (default_score_and_ranking ctxTwo hitNoScore (pyStr "q") none none 5).2
     [] [] []
     ⟨⟨pyStr "b", pyStr "B", EntryType.conversation, 0, []⟩, 1,
       pyStr "vector", [], []⟩
     ⟨⟨pyStr "a", pyStr "A", EntryType.conversation, 0, []⟩, 0,
       pyStr "vector", [], []⟩
     (by rfl)⟩

/-! ## C7: conversation context search -/

set_option maxRecDepth 8000 in
/-- C7 counterexample: against a store that returns a hit only for an
unfiltered query, `conversation_context_search` returns nothing and its
retry passes the same conversation-type filter as the primary call (the
trace shows two identical filtered calls), even though a relaxed query
would have produced a result. -/
theorem retry_keeps_conversation_filter :
    (conversation_context_search ctxRelax (pyStr "q") none 3).1 = []
    ∧ (conversation_context_search ctxRelax (pyStr "q") none 3).2 =
      [⟨embW, 3, some [EntryType.conversation], none⟩,
       ⟨embW, 3, some [EntryType.conversation], none⟩]
    ∧ _results_to_entries ctxRelax
        (storeOnlyRelaxed.searchByVector embW 3 none none) ≠ [] := by
  refine ⟨by rfl, by rfl, by decide⟩

theorem search_calls (ctx : SearchCtx) (q : List Nat)
    (et : Option (List EntryType)) (tf : Option TemporalFilter) (lim : ℕ) :
    (search ctx q et tf lim).2 = []
    ∨ (search ctx q et tf lim).2 =
      [⟨_get_embedding ctx.embedModel q, lim, et, tf⟩] := by
  unfold search
  dsimp only
  split
  · exact Or.inl rfl
  · split
    · exact Or.inl rfl
    · exact Or.inr rfl

/-- C7 amended: `conversation_context_search` restricts the entry-type filter
to the conversation type and, when the primary path yields zero results,
performs at most one retry that re-queries the store directly — with the SAME
conversation-type and temporal filters, not relaxed ones; every store call in
its trace carries the conversation filter, the trace never exceeds two calls
(the retry cannot loop), and a non-empty primary result is returned as is
with no retry. -/
theorem conversation_context_search_filters (ctx : SearchCtx)
    (message : List Nat) (tf : Option TemporalFilter) (lim : ℕ) :
    (∀ call ∈ (conversation_context_search ctx message tf lim).2,
      call.entry_types = some [EntryType.conversation] ∧ call.temporal = tf
        ∧ call.limit = lim)
    ∧ (conversation_context_search ctx message tf lim).2.length ≤ 2
    ∧ ((search ctx message (some [EntryType.conversation]) tf lim).1 ≠ [] →
      conversation_context_search ctx message tf lim =
        search ctx message (some [EntryType.conversation]) tf lim) := by
  have hS := search_calls ctx message (some [EntryType.conversation]) tf lim
  have hmemS : ∀ call ∈
      (search ctx message (some [EntryType.conversation]) tf lim).2,
      call.entry_types = some [EntryType.conversation] ∧ call.temporal = tf
        ∧ call.limit = lim := by
    intro call hc
    rcases hS with hS | hS
    · rw [hS] at hc
      exact absurd hc (List.not_mem_nil call)
    · rw [hS] at hc
      obtain rfl := List.mem_singleton.mp hc
      exact ⟨rfl, rfl, rfl⟩
  have hlenS :
      (search ctx message (some [EntryType.conversation]) tf lim).2.length
        ≤ 1 := by
    rcases hS with hS | hS <;> rw [hS] <;> simp
  unfold conversation_context_search
  dsimp only
  by_cases h1 :
      (search ctx message (some [EntryType.conversation]) tf lim).1 ≠ []
  · rw [if_pos h1]
    exact ⟨hmemS, le_trans hlenS (by omega), fun _ => rfl⟩
  · rw [if_neg h1]
    by_cases h2 : _get_embedding ctx.embedModel message ≠ []
    · rw [if_pos h2]
      cases hst : ctx.ms_store with
      | none =>
        exact ⟨hmemS, le_trans hlenS (by omega), fun hne => absurd hne h1⟩
      | some st =>
        dsimp only
        split
        · refine ⟨?_, ?_, fun hne => absurd hne h1⟩
          · intro call hc
            rcases List.mem_append.mp hc with hc | hc
            · exact hmemS call hc
            · obtain rfl := List.mem_singleton.mp hc
              exact ⟨rfl, rfl, rfl⟩
          · rw [List.length_append]
            simp only [List.length_cons, List.length_nil]
            omega
        · refine ⟨?_, ?_, fun hne => absurd hne h1⟩
          · intro call hc
            rcases List.mem_append.mp hc with hc | hc
            · exact hmemS call hc
            · obtain rfl := List.mem_singleton.mp hc
              exact ⟨rfl, rfl, rfl⟩
          · rw [List.length_append]
            simp only [List.length_cons, List.length_nil]
            omega
    · rw [if_neg h2]
      exact ⟨hmemS, le_trans hlenS (by omega), fun hne => absurd hne h1⟩

set_option maxRecDepth 8000 in
/-- C7 witness: the filter facts at a concrete search environment whose
retry fires. -/
theorem conversation_context_search_filters_witness :
    ((⟨embW, 3, some [EntryType.conversation], none⟩ : StoreCall).entry_types
        = some [EntryType.conversation]
      ∧ (⟨embW, 3, some [EntryType.conversation], none⟩ :
          StoreCall).temporal = none
      ∧ (⟨embW, 3, some [EntryType.conversation], none⟩ :
          StoreCall).limit = 3)
    ∧ (conversation_context_search ctxRelax (pyStr "q") none 3).2.length
        ≤ 2 :=
  ⟨(conversation_context_search_filters ctxRelax (pyStr "q") none 3).1 _
     (by decide),
   (conversation_context_search_filters ctxRelax (pyStr "q") none 3).2.1⟩
